import Mathlib

/-!
Verification development for the roam-fm station explorer.

The embedding models the two pieces of core logic of the repository:

* the station normalizer in `src/components/WorldMap.tsx` (the
  `uniqueStations` reduce that coerces coordinates, filters NaN
  coordinates, removes duplicates and is then truncated with
  `slice(0, 500)`), together with the surrounding fetch-result handler
  and the `toggleFavorite` state update;
* the multi-endpoint fetcher in `src/utils/fetchStations.ts`
  (`tryFetchFromServer` / `fetchStationsByTag`).

JavaScript numbers are modelled by `JSNum` (a rational together with
NaN and the two infinities), JavaScript field values by `JSVal`
(undefined, null, booleans, numbers, strings), so that the truthiness
semantics of `a || b` and `if (data)` and the `===`, `parseFloat` and
`isNaN` behaviour of the source are captured faithfully.
-/

/-- Model of a JavaScript number: NaN, the infinities, or a finite value
written exactly in decimal scientific form, `fin m e` standing for
`m * 10 ^ e` (every IEEE double value `m2 * 2 ^ k` equals such a decimal
exactly, so the representation loses nothing). -/
inductive JSNum where
  | nan : JSNum
  | posInf : JSNum
  | negInf : JSNum
  | fin : ℤ → ℤ → JSNum
deriving DecidableEq

/-- Strict equality of the values `m1 * 10 ^ e1` and `m2 * 10 ^ e2`,
decided by bringing both to the smaller exponent. -/
def finEq (m1 e1 m2 e2 : ℤ) : Bool :=
  let k := if e1 ≤ e2 then e1 else e2
  m1 * (10 : ℤ) ^ (e1 - k).toNat == m2 * (10 : ℤ) ^ (e2 - k).toNat

/-- JavaScript strict equality on numbers: NaN compares unequal to
everything, including itself. -/
def jsEq : JSNum → JSNum → Bool
  | .fin m1 e1, .fin m2 e2 => finEq m1 e1 m2 e2
  | .posInf, .posInf => true
  | .negInf, .negInf => true
  | _, _ => false

/-- The `isNaN` test of the source. -/
def jsIsNaN : JSNum → Bool
  | .nan => true
  | _ => false

/-- Whether a number is finite (neither NaN nor infinite). -/
def isFiniteNum : JSNum → Bool
  | .fin _ _ => true
  | _ => false

/-- JavaScript truthiness of a number: NaN and zero are falsy. -/
def jsTruthyNum : JSNum → Bool
  | .nan => false
  | .fin m _ => !(m == 0)
  | _ => true

/-- Model of a JavaScript field value as it may appear on a raw API
record. -/
inductive JSVal where
  | undef : JSVal
  | vnull : JSVal
  | vbool : Bool → JSVal
  | vnum : JSNum → JSVal
  | vstr : String → JSVal
deriving DecidableEq

/-- JavaScript truthiness of a value. -/
def truthy : JSVal → Bool
  | .undef => false
  | .vnull => false
  | .vbool b => b
  | .vnum n => jsTruthyNum n
  | .vstr s => !(s == "")

/-- The JavaScript `a || b` operator: `a` when truthy, otherwise `b`. -/
def jsOr (a b : JSVal) : JSVal := if truthy a then a else b

/-- Whitespace skipped by `parseFloat` before the numeral. -/
def isWs (c : Char) : Bool := c == ' ' || c == '\t' || c == '\n' || c == '\r'

/-- Numeric value of a list of decimal digit characters. -/
def digitsVal (ds : List Char) : ℕ := ds.foldl (fun n c => 10 * n + (c.toNat - 48)) 0

/-- Whether the character list starts with the literal `Infinity`. -/
def startsWithInfinity : List Char → Bool
  | 'I' :: 'n' :: 'f' :: 'i' :: 'n' :: 'i' :: 't' :: 'y' :: _ => true
  | _ => false

/-- Exponent part of a floating-point literal (`e`/`E`, optional sign,
digits); an incomplete exponent contributes nothing, as in
`parseFloat`. -/
def parseExp : List Char → ℤ
  | c :: rest =>
    if c == 'e' || c == 'E' then
      match rest with
      | '-' :: r2 =>
        let ed := r2.takeWhile Char.isDigit
        if ed.isEmpty then 0 else -(digitsVal ed : ℤ)
      | '+' :: r2 =>
        let ed := r2.takeWhile Char.isDigit
        if ed.isEmpty then 0 else (digitsVal ed : ℤ)
      | r2 =>
        let ed := r2.takeWhile Char.isDigit
        if ed.isEmpty then 0 else (digitsVal ed : ℤ)
    else 0
  | [] => 0

/-- Core of `parseFloat` on a character list: leading whitespace, an
optional sign, then either `Infinity` or the longest decimal literal;
NaN when no digits can be read. -/
def parseFloatCore (cs0 : List Char) : JSNum :=
  let cs1 := cs0.dropWhile isWs
  let signAndRest : Bool × List Char :=
    match cs1 with
    | '-' :: rest => (true, rest)
    | '+' :: rest => (false, rest)
    | _ => (false, cs1)
  let neg := signAndRest.1
  let cs := signAndRest.2
  if startsWithInfinity cs then (if neg then .negInf else .posInf)
  else
    let ip := cs.takeWhile Char.isDigit
    let csAfterInt := cs.dropWhile Char.isDigit
    let fracAndRest : List Char × List Char :=
      match csAfterInt with
      | '.' :: rest => (rest.takeWhile Char.isDigit, rest.dropWhile Char.isDigit)
      | _ => ([], csAfterInt)
    let fp := fracAndRest.1
    let csAfterFrac := fracAndRest.2
    if ip.isEmpty && fp.isEmpty then .nan
    else
      let mAbs : ℤ := (digitsVal (ip ++ fp) : ℤ)
      let m : ℤ := if neg then -mAbs else mAbs
      .fin m (parseExp csAfterFrac - (fp.length : ℤ))

/-- The `parseFloat` of the source applied to a field value: strings are
parsed, numbers pass through, `undefined`, `null` and booleans stringify
to non-numeric text and give NaN. -/
def jsParseFloat : JSVal → JSNum
  | .vstr s => parseFloatCore s.toList
  | .vnum n => n
  | _ => .nan

/-- A raw station record as returned by the upstream API (fields other
than `name` may be absent, numeric or strings). -/
structure RawStation where
  name : String
  latitude : JSVal
  geo_lat : JSVal
  longitude : JSVal
  geo_long : JSVal
  url_resolved : JSVal
deriving DecidableEq

/-- A retained station: the raw record spread with `latitude` and
`longitude` overwritten by the coerced numbers
(`{...current, latitude: lat, longitude: lng}`). -/
structure Station where
  name : String
  latitude : JSNum
  longitude : JSNum
  geo_lat : JSVal
  geo_long : JSVal
  url_resolved : JSVal
deriving DecidableEq

/-- `parseFloat(current.latitude || current.geo_lat)` from the source. -/
def coerceLat (r : RawStation) : JSNum := jsParseFloat (jsOr r.latitude r.geo_lat)

/-- `parseFloat(current.longitude || current.geo_long)` from the source. -/
def coerceLng (r : RawStation) : JSNum := jsParseFloat (jsOr r.longitude r.geo_long)

/-- The station pushed by the reduce: the raw record with coerced
coordinates. -/
def canon (r : RawStation) : Station :=
  { name := r.name
    latitude := coerceLat r
    longitude := coerceLng r
    geo_lat := r.geo_lat
    geo_long := r.geo_long
    url_resolved := r.url_resolved }

/-- The duplicate test of the reduce body: strict equality of name and
of both coordinates
(`station.name === current.name && station.latitude === lat && station.longitude === lng`). -/
def stationMatch (s : Station) (nm : String) (lat lng : JSNum) : Bool :=
  s.name == nm && jsEq s.latitude lat && jsEq s.longitude lng

/-- One step of the `data.reduce((acc, current) => ...)` dedup from
`WorldMap.tsx`. -/
def uniqueStep (acc : List Station) (current : RawStation) : List Station :=
  let lat := coerceLat current
  let lng := coerceLng current
  let isDuplicate := acc.any fun station => stationMatch station current.name lat lng
  if !isDuplicate && !(jsIsNaN lat) && !(jsIsNaN lng) then acc ++ [canon current]
  else acc

/-- The `uniqueStations` reduce of `WorldMap.tsx`. -/
def uniqueStations (data : List RawStation) : List Station :=
  data.foldl uniqueStep []

/-- The normalized station list handed to the view:
`uniqueStations.slice(0, 500)`. -/
def normalizeStations (data : List RawStation) : List Station :=
  (uniqueStations data).take 500

/-- Exact-match test between two raw records, phrased on their coerced
coordinates; this is what the dedup check amounts to between the record
that produced a retained station and a later record. -/
def rawMatch (a b : RawStation) : Bool :=
  a.name == b.name && jsEq (coerceLat a) (coerceLat b) && jsEq (coerceLng a) (coerceLng b)

/-- Re-inject a retained station as a raw record, keeping every field
value (numeric coordinates stay numbers, the spread-preserved
`geo_lat`, `geo_long` and `url_resolved` fields stay as they were). -/
def stationToRaw (s : Station) : RawStation :=
  { name := s.name
    latitude := .vnum s.latitude
    geo_lat := s.geo_lat
    longitude := .vnum s.longitude
    geo_long := s.geo_long
    url_resolved := s.url_resolved }

/-- A JSON payload as produced by `res.json()` on a candidate server. -/
inductive Payload where
  | pnull : Payload
  | pbool : Bool → Payload
  | pnum : JSNum → Payload
  | pstr : String → Payload
  | parr : List RawStation → Payload
deriving DecidableEq

/-- JavaScript truthiness of a parsed payload; arrays (even empty ones)
are truthy. -/
def truthyPayload : Payload → Bool
  | .pnull => false
  | .pbool b => b
  | .pnum n => jsTruthyNum n
  | .pstr s => !(s == "")
  | .parr _ => true

/-- Outcome of contacting one candidate server. -/
inductive ServerOutcome where
  | netFail : ServerOutcome
  | timedOut : ServerOutcome
  | httpError : ℕ → ServerOutcome
  | jsonError : ServerOutcome
  | ok : Payload → ServerOutcome
deriving DecidableEq

/-- `tryFetchFromServer` from `fetchStations.ts`: every failure
(network error, timeout, non-ok status, JSON parse error) is caught and
becomes `null`; a successful response yields its parsed payload. -/
def tryFetchFromServer : ServerOutcome → Payload
  | .ok v => v
  | _ => .pnull

/-- The candidate-server loop of `fetchStationsByTag`, instrumented with
the number of servers actually contacted: each server is tried in list
order, the first truthy payload is returned, and exhaustion raises the
terminal error. -/
def fetchLoop : List ServerOutcome → Except String Payload × ℕ
  | [] => (.error "All Radio Browser API servers failed to respond", 0)
  | r :: rest =>
    let d := tryFetchFromServer r
    if truthyPayload d then (.ok d, 1)
    else
      let res := fetchLoop rest
      (res.1, res.2 + 1)

/-- Result of `fetchStationsByTag`, as a function of the outcome each
candidate server would produce. -/
def fetchStationsByTag (servers : List ServerOutcome) : Except String Payload :=
  (fetchLoop servers).1

/-- Number of candidate servers the loop actually contacts. -/
def fetchAttempts (servers : List ServerOutcome) : ℕ :=
  (fetchLoop servers).2

/-- Whether a candidate server failed (anything except an ok response). -/
def isServerFailure : ServerOutcome → Bool
  | .ok _ => false
  | _ => true

/-- The view state written by the fetch effect in `WorldMap.tsx`: the
`error` message state and the `stations` state. -/
structure ViewState where
  error : Option String
  stations : List Station
deriving DecidableEq

/-- The `.then`/`.catch` handler of the fetch effect: a rejected fetch
sets the retry message; a resolved fetch with a non-array or empty
payload sets the no-stations message; otherwise the normalized list is
stored and the error state stays cleared. -/
def fetchHandler : Except String Payload → ViewState
  | .error _ => { error := some "Failed to load stations. Please try again.", stations := [] }
  | .ok (.parr (r :: rs)) => { error := none, stations := normalizeStations (r :: rs) }
  | .ok _ => { error := some "No stations found for this tag", stations := [] }

/-- The error banner renders exactly when the error state is set
(`{error && <div>{error}</div>}` in the view). -/
def showsErrorBanner (v : ViewState) : Bool := v.error.isSome

/-- `toggleFavorite` from `WorldMap.tsx`: if some favorite has the same
name, filter out every favorite with that name, otherwise append the
station. -/
def toggleFavorite (station : Station) (prev : List Station) : List Station :=
  let isFavorite := prev.any fun fav => fav.name == station.name
  if isFavorite then prev.filter fun fav => !(fav.name == station.name)
  else prev ++ [station]

/-- Favorites state reached from the initial empty list by a sequence of
toggles. -/
def applyToggles (ops : List Station) : List Station :=
  ops.foldl (fun acc s => toggleFavorite s acc) []

/-! ### Concrete records used in the claims -/

/-- First record of the dedup example in the spec. -/
def jazzRec1 : RawStation := ⟨"Jazz FM", .vstr "10", .undef, .vstr "20", .undef, .undef⟩

/-- Second record of the dedup example: same name up to case and
whitespace, coordinates within 0.001 of the first record. -/
def jazzRec2 : RawStation :=
  ⟨" jazz fm ", .vnum (.fin 100002 (-4)), .undef, .vnum (.fin 200001 (-4)), .undef, .undef⟩

/-- The record with non-coercible latitude from the spec example. -/
def abcRec : RawStation := ⟨"X", .vstr "abc", .undef, .vstr "5", .undef, .undef⟩

/-- A record whose latitude string parses to positive infinity. -/
def infRec : RawStation := ⟨"X", .vstr "Infinity", .undef, .vstr "5", .undef, .undef⟩

/-- A valid record sitting on the equator (latitude string `0`). -/
def rawX : RawStation := ⟨"X", .vstr "0", .undef, .vstr "5", .undef, .undef⟩

/-- A record with numeric latitude `0` present and a `geo_lat` fallback
also present. -/
def rec0 : RawStation :=
  ⟨"X", .vnum (.fin 0 0), .vnum (.fin 5 0), .vnum (.fin 10 0), .undef, .undef⟩

/-- A plain valid record. -/
def recA : RawStation := ⟨"A", .vnum (.fin 3 0), .undef, .vnum (.fin 4 0), .undef, .undef⟩

/-- The station produced by normalizing `recA`. -/
def stRecA : Station := ⟨"A", .fin 3 0, .fin 4 0, .undef, .undef, .undef⟩

/-- A second station with a different name. -/
def stRecB : Station := ⟨"B", .fin 7 0, .fin 8 0, .undef, .undef, .undef⟩

/-! ### Behaviour of one dedup step -/

/-- A step of the reduce either keeps the accumulator or appends the
canonicalized record, the latter exactly when the record is valid and
matches nothing retained so far. -/
lemma uniqueStep_keeps_or_pushes (acc : List Station) (r : RawStation) :
    uniqueStep acc r = acc ∨
    ((acc.any fun s => stationMatch s r.name (coerceLat r) (coerceLng r)) = false ∧
      jsIsNaN (coerceLat r) = false ∧ jsIsNaN (coerceLng r) = false ∧
      uniqueStep acc r = acc ++ [canon r]) := by
  unfold uniqueStep
  cases hdup : acc.any fun s => stationMatch s r.name (coerceLat r) (coerceLng r) with
  | true => left; simp [hdup]
  | false =>
    cases h1 : jsIsNaN (coerceLat r) with
    | true => left; simp [hdup, h1]
    | false =>
      cases h2 : jsIsNaN (coerceLng r) with
      | true => left; simp [hdup, h1, h2]
      | false => right; exact ⟨rfl, rfl, rfl, by simp [hdup, h1, h2]⟩

/-- A record that is valid and is no duplicate of anything retained is
appended. -/
lemma uniqueStep_push (acc : List Station) (r : RawStation)
    (hdup : (acc.any fun s => stationMatch s r.name (coerceLat r) (coerceLng r)) = false)
    (h1 : jsIsNaN (coerceLat r) = false) (h2 : jsIsNaN (coerceLng r) = false) :
    uniqueStep acc r = acc ++ [canon r] := by
  unfold uniqueStep
  simp [hdup, h1, h2]

/-! ### Invariants of the dedup fold -/

/-- No retained station exactly matches a later retained station on
name and both coordinates. -/
lemma foldl_uniqueStep_pairwise :
    ∀ (rs : List RawStation) (acc : List Station),
      acc.Pairwise (fun s t => stationMatch s t.name t.latitude t.longitude = false) →
      (rs.foldl uniqueStep acc).Pairwise
        (fun s t => stationMatch s t.name t.latitude t.longitude = false) := by
  intro rs
  induction rs with
  | nil => intro acc hacc; exact hacc
  | cons r rs ih =>
    intro acc hacc
    rw [List.foldl_cons]
    rcases uniqueStep_keeps_or_pushes acc r with h | ⟨hdup, _, _, h⟩
    · rw [h]; exact ih acc hacc
    · rw [h]
      apply ih
      rw [List.pairwise_append]
      refine ⟨hacc, List.pairwise_singleton _ _, ?_⟩
      intro s hs t ht
      have ht' : t = canon r := by simpa using ht
      subst ht'
      have hall : ∀ s ∈ acc, ¬(stationMatch s r.name (coerceLat r) (coerceLng r)) = true :=
        List.any_eq_false.mp hdup
      have := hall s hs
      show stationMatch s (canon r).name (canon r).latitude (canon r).longitude = false
      simpa [canon] using this

/-- The fold only ever appends canonicalized input records, in input
order: its result extends the accumulator by a sublist of the
canonicalized input. -/
lemma foldl_uniqueStep_sublist :
    ∀ (rs : List RawStation) (acc : List Station),
      ∃ t, rs.foldl uniqueStep acc = acc ++ t ∧ t.Sublist (rs.map canon) := by
  intro rs
  induction rs with
  | nil => intro acc; exact ⟨[], by simp, by simp⟩
  | cons r rs ih =>
    intro acc
    rw [List.foldl_cons, List.map_cons]
    rcases uniqueStep_keeps_or_pushes acc r with h | ⟨_, _, _, h⟩
    · rw [h]
      obtain ⟨t, ht, hsub⟩ := ih acc
      exact ⟨t, ht, hsub.cons _⟩
    · rw [h]
      obtain ⟨t, ht, hsub⟩ := ih (acc ++ [canon r])
      refine ⟨canon r :: t, ?_, hsub.cons₂ _⟩
      rw [ht, List.append_assoc]
      rfl

/-- Every station the fold retains has non-NaN coordinates. -/
lemma foldl_uniqueStep_nonNaN :
    ∀ (rs : List RawStation) (acc : List Station),
      (∀ s ∈ acc, jsIsNaN s.latitude = false ∧ jsIsNaN s.longitude = false) →
      ∀ s ∈ rs.foldl uniqueStep acc,
        jsIsNaN s.latitude = false ∧ jsIsNaN s.longitude = false := by
  intro rs
  induction rs with
  | nil => intro acc hacc; exact hacc
  | cons r rs ih =>
    intro acc hacc
    rw [List.foldl_cons]
    rcases uniqueStep_keeps_or_pushes acc r with h | ⟨_, h1, h2, h⟩
    · rw [h]; exact ih acc hacc
    · rw [h]
      apply ih
      intro s hs
      rcases List.mem_append.mp hs with hs' | hs'
      · exact hacc s hs'
      · have : s = canon r := by simpa using hs'
        subst this
        constructor
        · simpa [canon] using h1
        · simpa [canon] using h2

/-- On a list of valid, pairwise non-matching records that also match
nothing in the accumulator, the fold appends every record. -/
lemma foldl_uniqueStep_of_distinct :
    ∀ (rs : List RawStation) (acc : List Station),
      (∀ r ∈ rs, jsIsNaN (coerceLat r) = false ∧ jsIsNaN (coerceLng r) = false) →
      (∀ s ∈ acc, ∀ r ∈ rs, stationMatch s r.name (coerceLat r) (coerceLng r) = false) →
      rs.Pairwise (fun a b => rawMatch a b = false) →
      rs.foldl uniqueStep acc = acc ++ rs.map canon := by
  intro rs
  induction rs with
  | nil => intro acc _ _ _; simp
  | cons r rs ih =>
    intro acc hval hnew hdist
    rw [List.foldl_cons, List.map_cons]
    have hdup : (acc.any fun s => stationMatch s r.name (coerceLat r) (coerceLng r)) = false := by
      rw [List.any_eq_false]
      intro s hs
      simp [hnew s hs r (by simp)]
    have hpush := uniqueStep_push acc r hdup (hval r (by simp)).1 (hval r (by simp)).2
    rw [hpush]
    obtain ⟨hhead, htail⟩ := List.pairwise_cons.mp hdist
    rw [ih (acc ++ [canon r]) ?_ ?_ htail]
    · rw [List.append_assoc]; rfl
    · intro r' hr'; exact hval r' (by simp [hr'])
    · intro s hs r' hr'
      rcases List.mem_append.mp hs with hs' | hs'
      · exact hnew s hs' r' (by simp [hr'])
      · have : s = canon r := by simpa using hs'
        subst this
        have := hhead r' hr'
        show stationMatch (canon r) r'.name (coerceLat r') (coerceLng r') = false
        simpa [canon, stationMatch, rawMatch] using this

/-! ### A family of valid, pairwise distinct records -/

/-- The i-th member of a family of valid records with pairwise distinct
latitudes. -/
def mkRec (i : ℕ) : RawStation :=
  { name := "S"
    latitude := .vnum (.fin ((i : ℤ) + 1) 0)
    geo_lat := .undef
    longitude := .vnum (.fin 1 0)
    geo_long := .undef
    url_resolved := .undef }

lemma coerceLat_mkRec (i : ℕ) : coerceLat (mkRec i) = .fin ((i : ℤ) + 1) 0 := by
  have h : (((i : ℤ) + 1) == 0) = false := by
    rw [beq_eq_false_iff_ne]
    omega
  simp [coerceLat, mkRec, jsOr, truthy, jsTruthyNum, h, jsParseFloat]

lemma coerceLng_mkRec (i : ℕ) : coerceLng (mkRec i) = .fin 1 0 := by
  have h : (((1 : ℤ)) == 0) = false := by decide
  simp [coerceLng, mkRec, jsOr, truthy, jsTruthyNum, h, jsParseFloat]

lemma mkRec_valid (n : ℕ) :
    ∀ r ∈ (List.range n).map mkRec,
      jsIsNaN (coerceLat r) = false ∧ jsIsNaN (coerceLng r) = false := by
  intro r hr
  obtain ⟨i, _, rfl⟩ := List.mem_map.mp hr
  rw [coerceLat_mkRec, coerceLng_mkRec]
  exact ⟨rfl, rfl⟩

lemma mkRec_pairwise (n : ℕ) :
    ((List.range n).map mkRec).Pairwise fun a b => rawMatch a b = false := by
  rw [List.pairwise_map]
  refine (List.pairwise_lt_range n).imp ?_
  intro i j hij
  have hne : ((i : ℤ) + 1 ≠ (j : ℤ) + 1) := by omega
  have hfin : finEq ((i : ℤ) + 1) 0 ((j : ℤ) + 1) 0 = false := by
    unfold finEq
    simp only [le_refl, if_pos]
    rw [beq_eq_false_iff_ne]
    simpa using hne
  unfold rawMatch
  rw [coerceLat_mkRec, coerceLat_mkRec]
  simp [jsEq, hfin]

/-! ### Re-normalizing a retained station -/

lemma nonNaN_of_truthyNum (n : JSNum) (h : jsTruthyNum n = true) : jsIsNaN n = false := by
  cases n <;> simp_all [jsTruthyNum, jsIsNaN]

/-- With truthy (nonzero, non-NaN) coordinates, re-injecting a retained
station and coercing again reproduces the station exactly. -/
lemma canon_stationToRaw (s : Station)
    (h1 : jsTruthyNum s.latitude = true) (h2 : jsTruthyNum s.longitude = true) :
    canon (stationToRaw s) = s := by
  simp [canon, stationToRaw, coerceLat, coerceLng, jsOr, truthy, h1, h2, jsParseFloat]

lemma coerceLat_stationToRaw (s : Station) (h1 : jsTruthyNum s.latitude = true) :
    coerceLat (stationToRaw s) = s.latitude := by
  simp [coerceLat, stationToRaw, jsOr, truthy, h1, jsParseFloat]

lemma coerceLng_stationToRaw (s : Station) (h2 : jsTruthyNum s.longitude = true) :
    coerceLng (stationToRaw s) = s.longitude := by
  simp [coerceLng, stationToRaw, jsOr, truthy, h2, jsParseFloat]

lemma map_canon_stationToRaw :
    ∀ ss : List Station,
      (∀ s ∈ ss, jsTruthyNum s.latitude = true ∧ jsTruthyNum s.longitude = true) →
      (ss.map stationToRaw).map canon = ss := by
  intro ss
  induction ss with
  | nil => intro _; rfl
  | cons s ss ih =>
    intro hval
    simp only [List.map_cons]
    rw [canon_stationToRaw s (hval s (by simp)).1 (hval s (by simp)).2,
      ih fun t ht => hval t (by simp [ht])]

/-! ### Fetch loop helpers -/

lemma fetchLoop_cons_falsy (r : ServerOutcome) (rest : List ServerOutcome)
    (h : truthyPayload (tryFetchFromServer r) = false) :
    fetchLoop (r :: rest) = ((fetchLoop rest).1, (fetchLoop rest).2 + 1) := by
  simp [fetchLoop, h]

lemma fetchLoop_cons_truthy (r : ServerOutcome) (rest : List ServerOutcome)
    (h : truthyPayload (tryFetchFromServer r) = true) :
    fetchLoop (r :: rest) = (.ok (tryFetchFromServer r), 1) := by
  simp [fetchLoop, h]

lemma tryFetch_failure_falsy (r : ServerOutcome) (h : isServerFailure r = true) :
    truthyPayload (tryFetchFromServer r) = false := by
  cases r <;> simp_all [isServerFailure, tryFetchFromServer, truthyPayload]

lemma fetch_exhaustion_aux :
    ∀ servers : List ServerOutcome,
      (∀ r ∈ servers, isServerFailure r = true) →
      fetchStationsByTag servers =
        Except.error "All Radio Browser API servers failed to respond" := by
  intro servers
  induction servers with
  | nil => intro _; rfl
  | cons r rest ih =>
    intro h
    have hfalsy := tryFetch_failure_falsy r (h r (by simp))
    show (fetchLoop (r :: rest)).1 = _
    rw [fetchLoop_cons_falsy r rest hfalsy]
    exact ih fun y hy => h y (by simp [hy])

lemma fetch_result_truthy :
    ∀ (rs : List ServerOutcome) (p : Payload),
      fetchStationsByTag rs = Except.ok p → truthyPayload p = true := by
  intro rs
  induction rs with
  | nil =>
    intro p hp
    exact absurd hp (by simp [fetchStationsByTag, fetchLoop])
  | cons r rest ih =>
    intro p hp
    cases hd : truthyPayload (tryFetchFromServer r) with
    | true =>
      have : fetchStationsByTag (r :: rest) = .ok (tryFetchFromServer r) := by
        show (fetchLoop (r :: rest)).1 = _
        rw [fetchLoop_cons_truthy r rest hd]
      rw [this] at hp
      obtain rfl : tryFetchFromServer r = p := by
        simpa using hp
      exact hd
    | false =>
      have : fetchStationsByTag (r :: rest) = fetchStationsByTag rest := by
        show (fetchLoop (r :: rest)).1 = _
        rw [fetchLoop_cons_falsy r rest hd]
        rfl
      rw [this] at hp
      exact ih p hp

/-! ### Favorites helpers -/

lemma toggle_names_nodup (s : Station) (l : List Station)
    (h : (l.map Station.name).Nodup) :
    ((toggleFavorite s l).map Station.name).Nodup := by
  unfold toggleFavorite
  cases hfav : l.any fun fav => fav.name == s.name with
  | true =>
    simp only [hfav, if_pos]
    have hsub : ((l.filter fun fav => !(fav.name == s.name)).map Station.name).Sublist
        (l.map Station.name) :=
      (List.filter_sublist l).map Station.name
    exact hsub.nodup h
  | false =>
    simp only [hfav, Bool.false_eq_true, if_neg, not_false_eq_true]
    rw [List.map_append, List.nodup_append]
    refine ⟨h, by simp, ?_⟩
    intro nm hnm hnm'
    obtain ⟨f, hf, rfl⟩ := List.mem_map.mp hnm
    have hs : f.name = s.name := by simpa using hnm'
    have := (List.any_eq_false.mp hfav) f hf
    rw [hs] at this
    exact this (by simp)

lemma applyToggles_aux :
    ∀ (ops : List Station) (acc : List Station),
      (acc.map Station.name).Nodup →
      (((ops.foldl (fun acc s => toggleFavorite s acc) acc)).map Station.name).Nodup := by
  intro ops
  induction ops with
  | nil => intro acc h; exact h
  | cons s ops ih =>
    intro acc h
    exact ih _ (toggle_names_nodup s acc h)

/-! ### Claim theorems -/

/-- C1 counterexample: on the spec example (same name up to case and
trimming, coordinates within 0.001), the code retains BOTH records, so
the claimed three-way tolerant dedup rule, which would yield exactly one
result, does not hold. -/
theorem dedup_tolerant_rule_counterexample :
    (normalizeStations [jazzRec1, jazzRec2]).length = 2 := by decide

/-- C1 amended: deduplication uses only exact (case-sensitive,
untrimmed) name equality together with strict equality of both parsed
coordinates; no stream-URL clause and no coordinate tolerance exist. The
retained list never contains two stations agreeing exactly on name and
both coordinates, it is an in-order sublist of the canonicalized input
(first occurrence kept, later duplicates dropped), and the spec example
yields 2 results, not 1. -/
theorem dedup_is_exact_triple_equality :
    (∀ rs : List RawStation,
      ((uniqueStations rs).Pairwise fun s t =>
        stationMatch s t.name t.latitude t.longitude = false) ∧
      (uniqueStations rs).Sublist (rs.map canon)) ∧
    (normalizeStations [jazzRec1, jazzRec2]).length = 2 := by
  refine ⟨fun rs => ⟨foldl_uniqueStep_pairwise rs [] (by simp), ?_⟩, by decide⟩
  obtain ⟨t, ht, hsub⟩ := foldl_uniqueStep_sublist rs []
  show (rs.foldl uniqueStep []).Sublist (rs.map canon)
  rw [ht, List.nil_append]
  exact hsub

/-- C2 counterexample: a record whose latitude string parses to Infinity
is retained with a non-finite latitude, because the code only filters
NaN, so not every record with a non-finite coordinate is dropped. -/
theorem infinite_latitude_retained :
    normalizeStations [infRec] = [⟨"X", .posInf, .fin 5 0, .undef, .undef, .undef⟩] ∧
    isFiniteNum JSNum.posInf = false := by decide

/-- C2 amended: every retained station has non-NaN latitude and
longitude, and a record whose coerced latitude or longitude is NaN is
dropped silently (the example with latitude "abc" yields the empty
list); infinite coordinates, however, pass the filter. -/
theorem normalizer_drops_only_nan :
    (∀ (rs : List RawStation), ∀ s ∈ normalizeStations rs,
      jsIsNaN s.latitude = false ∧ jsIsNaN s.longitude = false) ∧
    normalizeStations [abcRec] = [] := by
  refine ⟨?_, by decide⟩
  intro rs s hs
  exact foldl_uniqueStep_nonNaN rs [] (by simp) s (List.mem_of_mem_take hs)

/-- C2 witness: the amended theorem applied to a concrete input whose
output contains a concrete station. -/
theorem normalizer_drops_only_nan_witness :
    jsIsNaN stRecA.latitude = false ∧ jsIsNaN stRecA.longitude = false :=
  normalizer_drops_only_nan.1 [recA] stRecA (by decide)

/-- C3 counterexample: a record with latitude present but equal to the
number 0 has its latitude resolved from geo_lat (the JavaScript or-else
is on truthiness, not presence), contradicting the claim that a present
latitude field is never resolved from geo_lat. -/
theorem present_latitude_zero_uses_geo_lat :
    rec0.latitude ≠ JSVal.undef ∧
    coerceLat rec0 = jsParseFloat rec0.geo_lat ∧
    coerceLat rec0 ≠ jsParseFloat rec0.latitude ∧
    normalizeStations [rec0] =
      [⟨"X", .fin 5 0, .fin 10 0, .vnum (.fin 5 0), .undef, .undef⟩] := by decide

/-- C3 amended: latitude is computed from the latitude field when that
field is truthy (present and neither empty string, 0, NaN, null nor
false), else from geo_lat, and symmetrically for longitude; a present
but falsy latitude, such as the number 0, falls back to geo_lat. -/
theorem coordinate_fallback_truthiness (r : RawStation) :
    (truthy r.latitude = true → coerceLat r = jsParseFloat r.latitude) ∧
    (truthy r.latitude = false → coerceLat r = jsParseFloat r.geo_lat) ∧
    (truthy r.longitude = true → coerceLng r = jsParseFloat r.longitude) ∧
    (truthy r.longitude = false → coerceLng r = jsParseFloat r.geo_long) := by
  refine ⟨?_, ?_, ?_, ?_⟩ <;> intro h <;> simp [coerceLat, coerceLng, jsOr, h]

/-- C3 witness: both branches of the amended theorem at concrete
records. -/
theorem coordinate_fallback_truthiness_witness :
    coerceLat recA = jsParseFloat recA.latitude ∧
    coerceLat rec0 = jsParseFloat rec0.geo_lat :=
  ⟨(coordinate_fallback_truthiness recA).1 (by decide),
    (coordinate_fallback_truthiness rec0).2.1 (by decide)⟩

/-- C4 counterexample: a first candidate that succeeds with HTTP
success and valid JSON null does not short-circuit: a second request is
issued and the second candidate payload is returned, contradicting the
claim for a candidate that merely returns a success status and parses as
JSON. -/
theorem falsy_json_not_short_circuit :
    fetchAttempts [ServerOutcome.ok Payload.pnull,
      ServerOutcome.ok (Payload.parr [recA])] = 2 ∧
    fetchStationsByTag [ServerOutcome.ok Payload.pnull,
      ServerOutcome.ok (Payload.parr [recA])] = Except.ok (Payload.parr [recA]) ∧
    Payload.parr [recA] ≠ Payload.pnull := by
  refine ⟨rfl, rfl, by decide⟩

/-- C4 amended: candidates are tried strictly in list order; any failure
abandons the candidate and moves to the next, and the first candidate
whose parsed payload is truthy short-circuits the loop: its payload is
returned and no request is issued to later candidates (a candidate that
succeeds with a falsy payload, such as JSON null, is skipped like a
failure). -/
theorem fetch_first_truthy_short_circuits :
    ∀ (pre : List ServerOutcome) (r : ServerOutcome) (post : List ServerOutcome),
      (∀ x ∈ pre, truthyPayload (tryFetchFromServer x) = false) →
      truthyPayload (tryFetchFromServer r) = true →
      fetchStationsByTag (pre ++ r :: post) = Except.ok (tryFetchFromServer r) ∧
      fetchAttempts (pre ++ r :: post) = pre.length + 1 := by
  intro pre
  induction pre with
  | nil =>
    intro r post _ hr
    constructor
    · show (fetchLoop ([] ++ r :: post)).1 = _
      rw [List.nil_append, fetchLoop_cons_truthy r post hr]
    · show (fetchLoop ([] ++ r :: post)).2 = _
      rw [List.nil_append, fetchLoop_cons_truthy r post hr]
      rfl
  | cons x pre ih =>
    intro r post hpre hr
    have hx := hpre x (by simp)
    obtain ⟨ih1, ih2⟩ := ih r post (fun y hy => hpre y (by simp [hy])) hr
    unfold fetchStationsByTag at ih1 ⊢
    unfold fetchAttempts at ih2 ⊢
    rw [List.cons_append, fetchLoop_cons_falsy x _ hx]
    refine ⟨ih1, ?_⟩
    show (fetchLoop (pre ++ r :: post)).2 + 1 = _
    rw [ih2]
    simp

/-- C4 witness: two failing candidates, a third succeeding with an
array, a fourth never contacted. -/
theorem fetch_first_truthy_short_circuits_witness :
    fetchStationsByTag [ServerOutcome.timedOut, ServerOutcome.httpError 500,
      ServerOutcome.ok (Payload.parr [recA]), ServerOutcome.netFail] =
      Except.ok (Payload.parr [recA]) ∧
    fetchAttempts [ServerOutcome.timedOut, ServerOutcome.httpError 500,
      ServerOutcome.ok (Payload.parr [recA]), ServerOutcome.netFail] = 3 := by
  have h := fetch_first_truthy_short_circuits
    [ServerOutcome.timedOut, ServerOutcome.httpError 500]
    (ServerOutcome.ok (Payload.parr [recA])) [ServerOutcome.netFail]
    (by decide) (by decide)
  exact h

/-- C5: if every candidate server fails, the operation is the terminal
all-servers-failed error, and this outcome is distinguishable from a
successful fetch of an empty station array (an empty array is truthy and
is returned as a success). -/
theorem fetch_exhaustion_error (servers : List ServerOutcome)
    (h : ∀ r ∈ servers, isServerFailure r = true) :
    fetchStationsByTag servers =
      Except.error "All Radio Browser API servers failed to respond" ∧
    fetchStationsByTag [ServerOutcome.ok (Payload.parr [])] =
      Except.ok (Payload.parr []) ∧
    (Except.error "All Radio Browser API servers failed to respond"
      : Except String Payload) ≠ Except.ok (Payload.parr []) := by
  refine ⟨fetch_exhaustion_aux servers h, rfl, fun hcontra => Except.noConfusion hcontra⟩

/-- C5 witness: three concretely failing candidates. -/
theorem fetch_exhaustion_error_witness :
    fetchStationsByTag [ServerOutcome.netFail, ServerOutcome.timedOut,
      ServerOutcome.httpError 500] =
      Except.error "All Radio Browser API servers failed to respond" ∧
    fetchStationsByTag [ServerOutcome.ok (Payload.parr [])] =
      Except.ok (Payload.parr []) ∧
    (Except.error "All Radio Browser API servers failed to respond"
      : Except String Payload) ≠ Except.ok (Payload.parr []) :=
  fetch_exhaustion_error _ (by decide)

/-- C6: after deduplication the result is truncated to the fixed cap of
500, keeping exactly the first surviving records in input order: on any
list of at least 500 valid records with pairwise distinct dedup keys,
the output is exactly the canonicalized first 500 input records and has
length 500. -/
theorem normalizer_truncates_to_500 (rs : List RawStation)
    (hval : ∀ r ∈ rs, jsIsNaN (coerceLat r) = false ∧ jsIsNaN (coerceLng r) = false)
    (hdist : rs.Pairwise fun a b => rawMatch a b = false)
    (hlen : 500 ≤ rs.length) :
    normalizeStations rs = (rs.take 500).map canon ∧
    (normalizeStations rs).length = 500 := by
  have h := foldl_uniqueStep_of_distinct rs [] hval (by intro s hs; simp at hs) hdist
  have hu : uniqueStations rs = rs.map canon := by
    show rs.foldl uniqueStep [] = _
    rw [h, List.nil_append]
  constructor
  · show (uniqueStations rs).take 500 = _
    rw [hu, List.map_take]
  · show ((uniqueStations rs).take 500).length = 500
    rw [hu, List.length_take, List.length_map]
    omega

/-- C6 witness: 1000 valid pairwise distinct records; the output is the
canonicalized first 500 in order. -/
theorem normalizer_truncates_to_500_witness :
    normalizeStations ((List.range 1000).map mkRec) =
      (((List.range 1000).map mkRec).take 500).map canon ∧
    (normalizeStations ((List.range 1000).map mkRec)).length = 500 :=
  normalizer_truncates_to_500 _ (mkRec_valid 1000) (mkRec_pairwise 1000)
    (by rw [List.length_map, List.length_range]; omega)

/-- C7 counterexample: a normalized singleton list holding a station on
the equator (latitude 0) is already normalized output, yet normalizing
it again drops the station (latitude 0 is falsy, so the coercion falls
back to the absent geo_lat and produces NaN), so normalization is not
idempotent on already-normalized lists. -/
theorem normalize_not_idempotent_at_zero :
    normalizeStations [rawX] = [⟨"X", .fin 0 0, .fin 5 0, .undef, .undef, .undef⟩] ∧
    normalizeStations (List.map stationToRaw (normalizeStations [rawX])) = [] ∧
    normalizeStations [rawX] ≠ [] := by decide

/-- C7 amended: normalization is idempotent on already-normalized lists
whose coordinates are additionally truthy (nonzero, non-NaN): for such a
list with no duplicates under the dedup rule and length at most the cap,
normalizing again returns the same list unchanged and in order. -/
theorem normalize_idempotent_on_truthy_coords (ss : List Station)
    (hval : ∀ s ∈ ss, jsTruthyNum s.latitude = true ∧ jsTruthyNum s.longitude = true)
    (hdist : ss.Pairwise fun s t =>
      stationMatch s t.name t.latitude t.longitude = false)
    (hlen : ss.length ≤ 500) :
    normalizeStations (ss.map stationToRaw) = ss := by
  have hco1 : ∀ s ∈ ss, coerceLat (stationToRaw s) = s.latitude := fun s hs =>
    coerceLat_stationToRaw s (hval s hs).1
  have hco2 : ∀ s ∈ ss, coerceLng (stationToRaw s) = s.longitude := fun s hs =>
    coerceLng_stationToRaw s (hval s hs).2
  have hval' : ∀ r ∈ ss.map stationToRaw,
      jsIsNaN (coerceLat r) = false ∧ jsIsNaN (coerceLng r) = false := by
    intro r hr
    obtain ⟨s, hs, rfl⟩ := List.mem_map.mp hr
    rw [hco1 s hs, hco2 s hs]
    exact ⟨nonNaN_of_truthyNum _ (hval s hs).1, nonNaN_of_truthyNum _ (hval s hs).2⟩
  have hdist' : (ss.map stationToRaw).Pairwise fun a b => rawMatch a b = false := by
    rw [List.pairwise_map]
    refine List.Pairwise.imp_of_mem ?_ hdist
    intro s t hs ht h
    unfold rawMatch
    rw [hco1 s hs, hco1 t ht, hco2 s hs, hco2 t ht]
    simpa [stationToRaw, stationMatch] using h
  have h := foldl_uniqueStep_of_distinct (ss.map stationToRaw) []
    hval' (by intro s hs; simp at hs) hdist'
  have hu : uniqueStations (ss.map stationToRaw) = ss := by
    show (ss.map stationToRaw).foldl uniqueStep [] = ss
    rw [h, List.nil_append]
    exact map_canon_stationToRaw ss hval
  show (uniqueStations (ss.map stationToRaw)).take 500 = ss
  rw [hu]
  exact List.take_of_length_le hlen

/-- C7 witness: the amended idempotence at a concrete two-station
normalized list with truthy coordinates. -/
theorem normalize_idempotent_on_truthy_coords_witness :
    normalizeStations ([stRecA, stRecB].map stationToRaw) = [stRecA, stRecB] :=
  normalize_idempotent_on_truthy_coords [stRecA, stRecB]
    (by decide) (by decide) (by decide)

/-- C8 counterexample: a successful fetch with an empty array sets the
same error state that renders the error banner (with the no-stations
message), so the empty case is not a distinct non-error no-results
state. -/
theorem empty_result_sets_error_state :
    showsErrorBanner (fetchHandler (Except.ok (Payload.parr []))) = true ∧
    (fetchHandler (Except.ok (Payload.parr []))).error =
      some "No stations found for this tag" := ⟨rfl, rfl⟩

/-- C8 amended: an empty successful raw array and a propagated fetch
failure both set the error state rendered by the same banner; they are
distinguishable only by message text (no-stations versus the
retry-oriented failure text). Moreover the empty check is on the raw
array: a nonempty raw array whose normalized result is empty clears the
error state and stores no stations, producing neither banner. -/
theorem empty_result_shares_error_banner :
    (fetchHandler (Except.ok (Payload.parr []))).error =
      some "No stations found for this tag" ∧
    (∀ e : String, (fetchHandler (Except.error e)).error =
      some "Failed to load stations. Please try again.") ∧
    (fetchHandler (Except.ok (Payload.parr [abcRec]))).error = none ∧
    (fetchHandler (Except.ok (Payload.parr [abcRec]))).stations = [] ∧
    ("No stations found for this tag" ≠ "Failed to load stations. Please try again.") := by
  refine ⟨rfl, fun e => rfl, rfl, by decide, by decide⟩

/-- C9: a candidate whose response succeeds but parses to a falsy JSON
value is treated exactly like a failed candidate (the loop state is the
same as for a network failure), and the operation never resolves with a
falsy payload. -/
theorem falsy_payload_treated_as_failure (v : Payload) (servers : List ServerOutcome)
    (hv : truthyPayload v = false) :
    fetchLoop (ServerOutcome.ok v :: servers) =
      fetchLoop (ServerOutcome.netFail :: servers) ∧
    (∀ (rs : List ServerOutcome) (p : Payload),
      fetchStationsByTag rs = Except.ok p → truthyPayload p = true) := by
  constructor
  · rw [fetchLoop_cons_falsy _ _ (by simpa [tryFetchFromServer] using hv),
      fetchLoop_cons_falsy _ _ (by simp [tryFetchFromServer, truthyPayload])]
  · exact fetch_result_truthy

/-- C9 witness: a candidate answering the number 0 behaves like a
network failure, and an empty-array payload is truthy and returned. -/
theorem falsy_payload_treated_as_failure_witness :
    fetchLoop [ServerOutcome.ok (Payload.pnum (.fin 0 0)),
      ServerOutcome.ok (Payload.parr [recA])] =
      fetchLoop [ServerOutcome.netFail, ServerOutcome.ok (Payload.parr [recA])] ∧
    truthyPayload (Payload.parr [recA]) = true := by
  have h := falsy_payload_treated_as_failure (Payload.pnum (.fin 0 0))
    [ServerOutcome.ok (Payload.parr [recA])] (by decide)
  exact ⟨h.1, h.2 [ServerOutcome.ok (Payload.parr [recA])] (Payload.parr [recA]) rfl⟩

/-- C10: favorite membership is decided by exact name equality alone:
when the name is present every favorite with that name is removed,
otherwise the station is appended; hence every favorites state reachable
from the initial empty list by toggles has at most one station per name,
and toggling twice from a state where the name is absent restores the
list. -/
theorem favorites_exact_name_toggle :
    (∀ ops : List Station, ((applyToggles ops).map Station.name).Nodup) ∧
    (∀ (prev : List Station) (s : Station),
      (prev.any fun f => f.name == s.name) = true →
      toggleFavorite s prev = prev.filter fun f => !(f.name == s.name)) ∧
    (∀ (prev : List Station) (s : Station),
      (prev.any fun f => f.name == s.name) = false →
      toggleFavorite s prev = prev ++ [s]) ∧
    (∀ (prev : List Station) (s : Station),
      (prev.any fun f => f.name == s.name) = false →
      toggleFavorite s (toggleFavorite s prev) = prev) := by
  refine ⟨?_, ?_, ?_, ?_⟩
  · intro ops
    exact applyToggles_aux ops [] (by simp)
  · intro prev s h
    simp [toggleFavorite, h]
  · intro prev s h
    simp [toggleFavorite, h]
  · intro prev s h
    have habs : ∀ f ∈ prev, (f.name == s.name) = false := by
      intro f hf
      have := List.any_eq_false.mp h f hf
      simpa using this
    have h1 : toggleFavorite s prev = prev ++ [s] := by simp [toggleFavorite, h]
    rw [h1]
    have hany : ((prev ++ [s]).any fun f => f.name == s.name) = true := by
      rw [List.any_append]
      simp
    have h2 : toggleFavorite s (prev ++ [s]) =
        (prev ++ [s]).filter fun f => !(f.name == s.name) := by
      simp [toggleFavorite, hany]
    rw [h2, List.filter_append]
    have hfp : prev.filter (fun f => !(f.name == s.name)) = prev :=
      List.filter_eq_self.mpr (by intro f hf; simp [habs f hf])
    rw [hfp]
    simp

/-- C10 witness: toggling a fresh station twice over a one-favorite list
restores the list. -/
theorem favorites_exact_name_toggle_witness :
    toggleFavorite stRecB (toggleFavorite stRecB [stRecA]) = [stRecA] :=
  favorites_exact_name_toggle.2.2.2 [stRecA] stRecB (by decide)
